import Mathlib

/-!
Verification of the audit-trail engine: a shallow embedding of the ledger
data model, the SQL audit queries (`getUserTransactionHistory`,
`getFundLegitimacyTrail`, `getAuditSummary`, `userExists` from
`src/database.js`) and the service layer (`src/auditService.js`:
`validateUserId`, `generateFullAuditTrail`, `formatTransactionHistory`,
`formatFundTrail`, `formatAuditSummary`, `calculateAuditMetrics`,
`generateRecommendations`).

Modelling conventions: SQL `numeric` amounts and JS numbers are `Rat`
(the ledger stores fixed-point decimals; JS float rounding is out of
scope); timestamps are `Int` (epoch instants ordered as SQL timestamps);
the nullable `status` column is `Option TxStatus` so that the
`status IS NULL` branch of `getAuditSummary` is representable; the
six-month window `fulltimestamp > CURRENT_DATE - INTERVAL '6 months'`
is a `cutoff : Int` parameter; `users.userid` is a primary key, so the
user join is a `find?` lookup. Single-pair conversion joins (the four
conjunctive `LEFT JOIN`s of `getAuditSummary`, the per-hop join of the
fund trail) are `find?` lookups under the convention that a
`(fromcurrency, tocurrency)` pair appears at most once; the history
query's single disjunctive `LEFT JOIN` is embedded with its full
multiplicity (one joined row per matching conversion row, a NULL-rate
row when none matches), and pair uniqueness enters only as an explicit
hypothesis of the theorems that need it.
-/

/-- Transaction kind. The schema stores a varchar; the kinds named by the
system (code, docs and tests) are these five. -/
inductive TxType
  | deposit
  | withdrawal
  | transfer
  | refund
  | reversal
deriving DecidableEq

/-- Transaction status values used by the system; the column itself is
nullable, hence `Option TxStatus` in the record. -/
inductive TxStatus
  | successful
  | failed
  | pending
deriving DecidableEq

/-- A row of the `transactions` table. -/
structure Txn where
  transactionid : Int
  transactiontype : TxType
  userid : Int
  fulltimestamp : Int
  status : Option TxStatus
  senderamount : Rat
  receiveramount : Rat
  sendercurrency : String
  receivercurrency : String
  senderid : Int
  receiverid : Int
deriving DecidableEq

/-- A row of the `users` table. -/
structure User where
  userid : Int
  balance : Rat
  currency : String
deriving DecidableEq

/-- A row of the `currencyconversions` table. -/
structure Conversion where
  fromcurrency : String
  tocurrency : String
  conversionrate : Rat
deriving DecidableEq

/-- A snapshot of the ledger store. -/
structure Database where
  users : List User
  transactions : List Txn
  currencyconversions : List Conversion
deriving DecidableEq

/-- The `LEFT JOIN currencyconversions cc ON cc.fromcurrency = f AND
cc.tocurrency = t` lookup, `none` when no pair is configured. -/
def lookupRate (cc : List Conversion) (f t : String) : Option Rat :=
  (cc.find? (fun c => c.fromcurrency == f && c.tocurrency == t)).map
    (fun c => c.conversionrate)

/-- The `COALESCE(cc.conversionrate, 1.0)` fallback: a missing rate pair
converts at 1:1. -/
def rateOr1 (cc : List Conversion) (f t : String) : Rat :=
  (lookupRate cc f t).getD 1

/-- The `user_transactions` / audit-summary relevance condition of
`src/database.js`: the account initiated a deposit or withdrawal, or is a
party of a transfer. Refunds and reversals match no disjunct. -/
def isRelevantTx (uid : Int) (t : Txn) : Bool :=
  ((t.transactiontype == TxType.deposit || t.transactiontype == TxType.withdrawal)
      && t.userid == uid)
    || (t.transactiontype == TxType.transfer
      && (t.senderid == uid || t.receiverid == uid))

/-- The `t.status = 'successful'` filter. -/
def statusSuccessful (t : Txn) : Bool :=
  t.status == some TxStatus.successful

/-- The `CASE` expression computing `balance_impact_base_currency`,
identical in `getUserTransactionHistory` (`transaction_impacts` CTE) and
`getAuditSummary` (`balance_calculation` CTE). -/
def balance_impact (uid : Int) (base : String) (cc : List Conversion) (t : Txn) : Rat :=
  match t.transactiontype with
  | TxType.deposit =>
      if t.receivercurrency = base then t.receiveramount
      else t.receiveramount * rateOr1 cc t.receivercurrency base
  | TxType.withdrawal =>
      if t.sendercurrency = base then -t.senderamount
      else -t.senderamount * rateOr1 cc t.sendercurrency base
  | TxType.transfer =>
      if t.senderid = uid then
        (if t.sendercurrency = base then -t.senderamount
         else -t.senderamount * rateOr1 cc t.sendercurrency base)
      else if t.receiverid = uid then
        (if t.receivercurrency = base then t.receiveramount
         else t.receiveramount * rateOr1 cc t.receivercurrency base)
      else 0
  | _ => 0

/-- The `JOIN users u ON u.userid = $1` lookup (unique primary key). -/
def findUser (db : Database) (uid : Int) : Option User :=
  db.users.find? (fun u => u.userid == uid)

/-- The successful relevant transactions of an account, the row set of the
`user_transactions` CTE. -/
def userTxns (db : Database) (uid : Int) : List Txn :=
  db.transactions.filter (fun t => isRelevantTx uid t && statusSuccessful t)

/-- An output row of `getUserTransactionHistory`. -/
structure HistoryRow where
  tx : Txn
  balance_impact_base_currency : Rat
  running_balance : Rat
  user_base_currency : String
deriving DecidableEq

/-- Sort key of the final `ORDER BY fulltimestamp DESC` of the history
query: most recent first. -/
def histOrder (a b : HistoryRow) : Prop :=
  b.tx.fulltimestamp ≤ a.tx.fulltimestamp

instance : DecidableRel histOrder := fun a b =>
  inferInstanceAs (Decidable (b.tx.fulltimestamp ≤ a.tx.fulltimestamp))

instance : IsTotal HistoryRow histOrder :=
  ⟨fun a b => le_total b.tx.fulltimestamp a.tx.fulltimestamp⟩

instance : IsTrans HistoryRow histOrder :=
  ⟨fun _ _ _ h1 h2 => le_trans h2 h1⟩

/-- The disjunctive `ON` condition of the history query's single
`LEFT JOIN currencyconversions cc`: a conversion row matches a
transaction when any of the four disjuncts holds (deposit on the
receiver pair, withdrawal on the sender pair, transfer-as-sender on the
sender pair, transfer-as-receiver on the receiver pair). For a
self-transfer both transfer disjuncts are active at once. -/
def historyCCMatch (uid : Int) (base : String) (t : Txn) (c : Conversion) : Bool :=
  (t.transactiontype == TxType.deposit
      && c.fromcurrency == t.receivercurrency && c.tocurrency == base)
    || (t.transactiontype == TxType.withdrawal
      && c.fromcurrency == t.sendercurrency && c.tocurrency == base)
    || (t.transactiontype == TxType.transfer && t.senderid == uid
      && c.fromcurrency == t.sendercurrency && c.tocurrency == base)
    || (t.transactiontype == TxType.transfer && t.receiverid == uid
      && c.fromcurrency == t.receivercurrency && c.tocurrency == base)

/-- `LEFT JOIN` multiplicity for one transaction: one joined row per
matching conversion row (its rate), or a single row with a NULL rate
when nothing matches. -/
def ccRates (cc : List Conversion) (uid : Int) (base : String) (t : Txn) : List (Option Rat) :=
  if (cc.filter (historyCCMatch uid base t)).isEmpty then [none]
  else (cc.filter (historyCCMatch uid base t)).map (fun c => some c.conversionrate)

/-- The `CASE` expression of the `transaction_impacts` CTE evaluated on
one joined row, `rate` being that row's `cc.conversionrate` (NULL when
the join found no pair; `COALESCE(cc.conversionrate, 1.0)` is
`rate.getD 1`). -/
def balance_impact_join (uid : Int) (base : String) (rate : Option Rat) (t : Txn) : Rat :=
  match t.transactiontype with
  | TxType.deposit =>
      if t.receivercurrency = base then t.receiveramount
      else t.receiveramount * rate.getD 1
  | TxType.withdrawal =>
      if t.sendercurrency = base then -t.senderamount
      else -t.senderamount * rate.getD 1
  | TxType.transfer =>
      if t.senderid = uid then
        (if t.sendercurrency = base then -t.senderamount
         else -t.senderamount * rate.getD 1)
      else if t.receiverid = uid then
        (if t.receivercurrency = base then t.receiveramount
         else t.receiveramount * rate.getD 1)
      else 0
  | _ => 0

/-- The row set of the `transaction_impacts` CTE: every relevant
successful transaction left-joined against the conversion table, so one
`(transaction, rate)` row per matching conversion pair and a NULL-rate
row where none matches. -/
def impactRows (db : Database) (uid : Int) (base : String) : List (Txn × Option Rat) :=
  (userTxns db uid).flatMap (fun t =>
    (ccRates db.currencyconversions uid base t).map (fun r => (t, r)))

/-- One annotated row of the `transaction_impacts` / `running_balance`
CTEs: the joined row's transaction, its impact, and the windowed running
balance. The window `SUM(...) OVER (ORDER BY fulltimestamp)` uses the
SQL default `RANGE` frame, so a row's running balance sums the impacts
of every joined row whose timestamp is at most its own (peers and
join-duplicated rows included). -/
def annRow (db : Database) (uid : Int) (base : String) (p : Txn × Option Rat) : HistoryRow :=
  { tx := p.1
    balance_impact_base_currency := balance_impact_join uid base p.2 p.1
    running_balance :=
      (((impactRows db uid base).filter
          (fun q => decide (q.1.fulltimestamp ≤ p.1.fulltimestamp))).map
        (fun q => balance_impact_join uid base q.2 q.1)).sum
    user_base_currency := base }

/-- Shallow embedding of `getUserTransactionHistory`: the joined rows of
relevant successful transactions annotated with impact and running
balance, returned most recent first (`ORDER BY fulltimestamp DESC`),
capped by `LIMIT 100`. -/
def getUserTransactionHistory (db : Database) (uid : Int) : List HistoryRow :=
  match findUser db uid with
  | none => []
  | some u =>
      (((impactRows db uid u.currency).map (annRow db uid u.currency)).insertionSort
        histOrder).take 100

/-- The `balance_status` values of the audit summary. -/
inductive BalanceStatus
  | BALANCED
  | DISCREPANCY
deriving DecidableEq

/-- The transaction set of the `balance_calculation` CTE: the relevance
join condition under `WHERE t.status = 'successful' OR t.status IS NULL`. -/
def summaryRelevant (uid : Int) (t : Txn) : Bool :=
  isRelevantTx uid t && (statusSuccessful t || t.status == none)

/-- The `calculated_balance` aggregate of `getAuditSummary`: the sum of
`balance_impact` over every transaction passing the summary filter
(`COALESCE(SUM(...), 0)` makes the empty sum 0). -/
def calculated_balance (db : Database) (uid : Int) (base : String) : Rat :=
  ((db.transactions.filter (summaryRelevant uid)).map
    (balance_impact uid base db.currencyconversions)).sum

/-- An output row of `getAuditSummary`. -/
structure SummaryRow where
  userid : Int
  base_currency : String
  current_balance : Rat
  calculated_balance : Rat
  balance_status : BalanceStatus
deriving DecidableEq

/-- Shallow embedding of `getAuditSummary`: no row when the account is
absent, else the stored balance, the recomputed balance, and the
`CASE WHEN ABS(...) < 0.01` status. -/
def getAuditSummary (db : Database) (uid : Int) : Option SummaryRow :=
  (findUser db uid).map (fun u =>
    let cb := calculated_balance db uid u.currency
    { userid := uid
      base_currency := u.currency
      current_balance := u.balance
      calculated_balance := cb
      balance_status :=
        if |u.balance - cb| < (1 : Rat) / 100 then BalanceStatus.BALANCED
        else BalanceStatus.DISCREPANCY })

/-- The `userExists` query: `SELECT userid FROM users WHERE userid = $1`
has at least one row. -/
def userExists (db : Database) (uid : Int) : Bool :=
  (findUser db uid).isSome

/-- PostgreSQL `::numeric(10,2)` cast: round to two fractional digits,
ties away from zero. -/
def pgRound2 (q : Rat) : Rat :=
  if 0 ≤ q then (⌊q * 100 + 1 / 2⌋ : Rat) / 100
  else -((⌊-q * 100 + 1 / 2⌋ : Rat) / 100)

/-- A row of the recursive `fund_trail` CTE of `getFundLegitimacyTrail`. -/
structure TrailNode where
  transactionid : Int
  senderid : Int
  receiverid : Int
  senderamount : Rat
  receiveramount : Rat
  sendercurrency : String
  receivercurrency : String
  fulltimestamp : Int
  transactiontype : TxType
  trail_depth : Nat
  transaction_path : List Int
  user_path : List Int
  traced_amount : Rat
  traced_currency : String
  is_original_source : Bool
deriving DecidableEq

/-- Base case of the `fund_trail` CTE: each successful recent transfer
into the audited account becomes a depth-1 node with account path
`[sender, receiver]`. -/
def seedNodes (db : Database) (uid : Int) (cutoff : Int) : List TrailNode :=
  (db.transactions.filter (fun t =>
      t.receiverid == uid && t.transactiontype == TxType.transfer
        && statusSuccessful t && decide (cutoff < t.fulltimestamp))).map (fun t =>
    { transactionid := t.transactionid
      senderid := t.senderid
      receiverid := t.receiverid
      senderamount := t.senderamount
      receiveramount := t.receiveramount
      sendercurrency := t.sendercurrency
      receivercurrency := t.receivercurrency
      fulltimestamp := t.fulltimestamp
      transactiontype := t.transactiontype
      trail_depth := 1
      transaction_path := [t.transactionid]
      user_path := [t.senderid, t.receiverid]
      traced_amount := pgRound2 t.receiveramount
      traced_currency := t.receivercurrency
      is_original_source := false })

/-- Join and filter conditions of the recursive case, minus the
`ft.trail_depth < 3` guard: `t.receiverid = ft.senderid`, successful,
backwards in time, inside the six-month window, cycle guard
`NOT (t.senderid = ANY(ft.user_path))`, and path length below 20. -/
def expandCand (cutoff : Int) (ft : TrailNode) (t : Txn) : Bool :=
  t.receiverid == ft.senderid
    && statusSuccessful t
    && decide (t.fulltimestamp ≤ ft.fulltimestamp)
    && decide (cutoff < t.fulltimestamp)
    && !(ft.user_path.contains t.senderid)
    && decide (ft.user_path.length < 20)

/-- Child node built by the recursive case: depth incremented, paths
extended, traced amount converted into the inherited tracing currency,
`is_original_source` true exactly for deposits. -/
def mkChild (cc : List Conversion) (ft : TrailNode) (t : Txn) : TrailNode :=
  { transactionid := t.transactionid
    senderid := t.senderid
    receiverid := t.receiverid
    senderamount := t.senderamount
    receiveramount := t.receiveramount
    sendercurrency := t.sendercurrency
    receivercurrency := t.receivercurrency
    fulltimestamp := t.fulltimestamp
    transactiontype := t.transactiontype
    trail_depth := ft.trail_depth + 1
    transaction_path := ft.transaction_path ++ [t.transactionid]
    user_path := ft.user_path ++ [t.senderid]
    traced_amount :=
      if t.receivercurrency = ft.traced_currency then t.receiveramount
      else pgRound2 (t.receiveramount * rateOr1 cc t.receivercurrency ft.traced_currency)
    traced_currency := ft.traced_currency
    is_original_source := t.transactiontype == TxType.deposit }

/-- One application of the recursive case to a node. The
`WHERE ft.trail_depth < 3` guard means only nodes strictly below depth 3
produce children. -/
def expand (db : Database) (cutoff : Int) (ft : TrailNode) : List TrailNode :=
  if ft.trail_depth < 3 then
    (db.transactions.filter (expandCand cutoff ft)).map (mkChild db.currencyconversions ft)
  else []

/-- The recursive case applied to a whole frontier. -/
def expandAll (db : Database) (cutoff : Int) (front : List TrailNode) : List TrailNode :=
  front.flatMap (expand db cutoff)

/-- Iterated frontier expansion with explicit fuel, collecting every
frontier: `trailFrom n f = f ++ expandAll f ++ expandAll² f ++ ...`. -/
def trailFrom (db : Database) (cutoff : Int) : Nat → List TrailNode → List TrailNode
  | 0, _ => []
  | n + 1, front => front ++ trailFrom db cutoff n (expandAll db cutoff front)

/-- The full `fund_trail` CTE row set. The depth guard empties every
frontier after the third, so fuel 5 is past the recursive fixpoint and
the fuelled unfolding agrees with the SQL recursive-CTE semantics. -/
def fund_trail (db : Database) (uid : Int) (cutoff : Int) : List TrailNode :=
  trailFrom db cutoff 5 (seedNodes db uid cutoff)

/-- Legitimacy classification values. -/
inductive LegStatus
  | LEGITIMATE_DEPOSIT
  | MAX_DEPTH_REACHED
  | TRACEABLE_TO_DEPOSIT
  | UNVERIFIED_SOURCE
deriving DecidableEq

/-- The `legitimate_sources` CASE: deposit nodes are legitimate; else
depth at least 10 is `MAX_DEPTH_REACHED`; else a node whose sender also
appears (same tracing currency) on a deposit node elsewhere in the set is
traceable; else unverified. -/
def legitimacy_statusOf (allNodes : List TrailNode) (ft : TrailNode) : LegStatus :=
  if ft.is_original_source then LegStatus.LEGITIMATE_DEPOSIT
  else if 10 ≤ ft.trail_depth then LegStatus.MAX_DEPTH_REACHED
  else if allNodes.any (fun ft2 =>
      ft2.senderid == ft.senderid && ft2.is_original_source
        && ft2.traced_currency == ft.traced_currency) then
    LegStatus.TRACEABLE_TO_DEPOSIT
  else LegStatus.UNVERIFIED_SOURCE

/-- A classified row of the `legitimate_sources` CTE. -/
structure LegRow where
  node : TrailNode
  legitimacy_statusF : LegStatus
deriving DecidableEq

/-- The `legitimate_sources` CTE: every `fund_trail` node classified
against the whole set. -/
def legitimate_sources (db : Database) (uid : Int) (cutoff : Int) : List LegRow :=
  (fund_trail db uid cutoff).map (fun ft =>
    { node := ft, legitimacy_statusF := legitimacy_statusOf (fund_trail db uid cutoff) ft })

/-- Sort key of the final `ORDER BY trail_depth, fulltimestamp`. -/
def trailOrder (a b : LegRow) : Prop :=
  a.node.trail_depth < b.node.trail_depth
    ∨ (a.node.trail_depth = b.node.trail_depth
        ∧ a.node.fulltimestamp ≤ b.node.fulltimestamp)

instance : DecidableRel trailOrder := fun _ _ =>
  inferInstanceAs (Decidable (_ ∨ _))

instance : IsTotal LegRow trailOrder := by
  constructor
  intro a b
  rcases lt_trichotomy a.node.trail_depth b.node.trail_depth with h | h | h
  · exact Or.inl (Or.inl h)
  · rcases le_total a.node.fulltimestamp b.node.fulltimestamp with h2 | h2
    · exact Or.inl (Or.inr ⟨h, h2⟩)
    · exact Or.inr (Or.inr ⟨h.symm, h2⟩)
  · exact Or.inr (Or.inl h)

instance : IsTrans LegRow trailOrder := by
  constructor
  intro a b c hab hbc
  rcases hab with h1 | ⟨h1, h1t⟩
  · rcases hbc with h2 | ⟨h2, _⟩
    · exact Or.inl (lt_trans h1 h2)
    · exact Or.inl (h2 ▸ h1)
  · rcases hbc with h2 | ⟨h2, h2t⟩
    · exact Or.inl (h1 ▸ h2)
    · exact Or.inr ⟨h1.trans h2, le_trans h1t h2t⟩

/-- Shallow embedding of `getFundLegitimacyTrail`: classified rows sorted
by depth then timestamp, capped by `LIMIT 20`. -/
def getFundLegitimacyTrail (db : Database) (uid : Int) (cutoff : Int) : List LegRow :=
  ((legitimate_sources db uid cutoff).insertionSort trailOrder).take 20

/-- An entry of the report's formatted transaction history
(`formatTransactionHistory`); numeric fields are exact here, so
`parseFloat(x) || 0` is the identity on the non-null columns kept. -/
structure FormattedTx where
  transactionId : Int
  type : TxType
  timestamp : Int
  senderAmount : Rat
  receiverAmount : Rat
  senderCurrency : String
  receiverCurrency : String
  senderId : Int
  receiverId : Int
  balanceImpact : Rat
  runningBalance : Rat
  baseCurrency : String
deriving DecidableEq

/-- The `formatTransactionHistory` mapping of `src/auditService.js`. -/
def formatTransactionHistory (rows : List HistoryRow) : List FormattedTx :=
  rows.map (fun r =>
    { transactionId := r.tx.transactionid
      type := r.tx.transactiontype
      timestamp := r.tx.fulltimestamp
      senderAmount := r.tx.senderamount
      receiverAmount := r.tx.receiveramount
      senderCurrency := r.tx.sendercurrency
      receiverCurrency := r.tx.receivercurrency
      senderId := r.tx.senderid
      receiverId := r.tx.receiverid
      balanceImpact := r.balance_impact_base_currency
      runningBalance := r.running_balance
      baseCurrency := r.user_base_currency })

/-- An entry of the report's formatted fund trail (`formatFundTrail`). -/
structure FormattedTrail where
  transactionId : Int
  senderId : Int
  receiverId : Int
  amount : Rat
  currency : String
  timestamp : Int
  trailDepth : Nat
  transactionPath : List Int
  userPath : List Int
  legitimacyStatus : LegStatus
  isOriginalSource : Bool
deriving DecidableEq

/-- The JS dedup key `sId-rId-txId` of `formatFundTrail`, as the triple
it encodes. -/
def trailKey (r : LegRow) : Int × Int × Int :=
  (r.node.senderid, r.node.receiverid, r.node.transactionid)

/-- First-occurrence deduplication over the JS `Map` keyed by `trailKey`,
preserving insertion order. -/
def dedupByKey (seen : List (Int × Int × Int)) : List LegRow → List LegRow
  | [] => []
  | r :: rs =>
      if trailKey r ∈ seen then dedupByKey seen rs
      else r :: dedupByKey (trailKey r :: seen) rs

/-- Field mapping of `formatFundTrail`. -/
def toFormattedTrail (r : LegRow) : FormattedTrail :=
  { transactionId := r.node.transactionid
    senderId := r.node.senderid
    receiverId := r.node.receiverid
    amount := r.node.senderamount
    currency := r.node.sendercurrency
    timestamp := r.node.fulltimestamp
    trailDepth := r.node.trail_depth
    transactionPath := r.node.transaction_path
    userPath := r.node.user_path
    legitimacyStatus := r.legitimacy_statusF
    isOriginalSource := r.node.is_original_source }

/-- Sort key of the final `.sort((a, b) => a.trailDepth - b.trailDepth)`. -/
def depthOrder (a b : FormattedTrail) : Prop :=
  a.trailDepth ≤ b.trailDepth

instance : DecidableRel depthOrder := fun a b =>
  inferInstanceAs (Decidable (a.trailDepth ≤ b.trailDepth))

instance : IsTotal FormattedTrail depthOrder :=
  ⟨fun a b => Nat.le_total a.trailDepth b.trailDepth⟩

instance : IsTrans FormattedTrail depthOrder :=
  ⟨fun _ _ _ h1 h2 => le_trans h1 h2⟩

/-- The `formatFundTrail` mapping of `src/auditService.js`: dedup by
(sender, receiver, transaction) keeping first occurrences, then a stable
sort by ascending trail depth. -/
def formatFundTrail (rows : List LegRow) : List FormattedTrail :=
  ((dedupByKey [] rows).map toFormattedTrail).insertionSort depthOrder

/-- The formatted audit summary (`formatAuditSummary`), with the
recomputed absolute discrepancy. -/
structure AuditSummaryF where
  userId : Int
  baseCurrency : String
  currentBalance : Rat
  calculatedBalance : Rat
  balanceStatus : BalanceStatus
  balanceDiscrepancy : Rat
deriving DecidableEq

/-- The `formatAuditSummary` mapping of `src/auditService.js` on a present
summary row. -/
def formatAuditSummary (s : SummaryRow) : AuditSummaryF :=
  { userId := s.userid
    baseCurrency := s.base_currency
    currentBalance := s.current_balance
    calculatedBalance := s.calculated_balance
    balanceStatus := s.balance_status
    balanceDiscrepancy := |s.current_balance - s.calculated_balance| }

/-- JS `Math.round`: nearest integer, halves toward positive infinity. -/
def jsRound (q : Rat) : Int :=
  ⌊q + 1 / 2⌋

/-- The JS two-decimal rounding `Math.round(x * 100) / 100`. -/
def round2 (q : Rat) : Rat :=
  (jsRound (q * 100) : Rat) / 100

/-- The `transactionBreakdown` counts of `calculateAuditMetrics`. -/
structure TransactionBreakdown where
  deposits : Nat
  withdrawals : Nat
  transfers : Nat
deriving DecidableEq

/-- The `amountBreakdown` sums of `calculateAuditMetrics`. -/
structure AmountBreakdown where
  totalDeposited : Rat
  totalWithdrawn : Rat
  totalTransferred : Rat
  totalReceived : Rat
deriving DecidableEq

/-- The `fundLegitimacy` block of `calculateAuditMetrics`. -/
structure FundLegitimacy where
  totalTrails : Nat
  legitimateTrails : Nat
  unverifiedTrails : Nat
  legitimacyScore : Int
deriving DecidableEq

/-- The metrics object of `calculateAuditMetrics`. -/
structure Metrics where
  totalTransactions : Nat
  transactionBreakdown : TransactionBreakdown
  amountBreakdown : AmountBreakdown
  fundLegitimacy : FundLegitimacy
deriving DecidableEq

/-- Shallow embedding of `calculateAuditMetrics` of `src/auditService.js`. -/
def calculateAuditMetrics (transactions : List FormattedTx)
    (fundTrail : List FormattedTrail) : Metrics :=
  let deposits := transactions.filter (fun tx => tx.type == TxType.deposit)
  let withdrawals := transactions.filter (fun tx => tx.type == TxType.withdrawal)
  let transfers := transactions.filter (fun tx => tx.type == TxType.transfer)
  let totalDeposited := (deposits.map (fun tx => tx.balanceImpact)).sum
  let totalWithdrawn := |(withdrawals.map (fun tx => tx.balanceImpact)).sum|
  let totalTransferred :=
    |((transfers.filter (fun tx => decide (tx.balanceImpact < 0))).map
        (fun tx => tx.balanceImpact)).sum|
  let totalReceived :=
    ((transfers.filter (fun tx => decide (0 < tx.balanceImpact))).map
        (fun tx => tx.balanceImpact)).sum
  let legitimateTrails := fundTrail.filter (fun tr =>
    tr.legitimacyStatus == LegStatus.LEGITIMATE_DEPOSIT
      || tr.legitimacyStatus == LegStatus.TRACEABLE_TO_DEPOSIT)
  let unverifiedTrails := fundTrail.filter (fun tr =>
    tr.legitimacyStatus == LegStatus.UNVERIFIED_SOURCE)
  { totalTransactions := transactions.length
    transactionBreakdown :=
      { deposits := deposits.length
        withdrawals := withdrawals.length
        transfers := transfers.length }
    amountBreakdown :=
      { totalDeposited := round2 totalDeposited
        totalWithdrawn := round2 totalWithdrawn
        totalTransferred := round2 totalTransferred
        totalReceived := round2 totalReceived }
    fundLegitimacy :=
      { totalTrails := fundTrail.length
        legitimateTrails := legitimateTrails.length
        unverifiedTrails := unverifiedTrails.length
        legitimacyScore :=
          if 0 < fundTrail.length then
            jsRound ((legitimateTrails.length : Rat) / (fundTrail.length : Rat) * 100)
          else 100 } }

/-- The six findings `generateRecommendations` can append, identified by
their triggering rule. -/
inductive RecKind
  | balanceDiscrepancyRec
  | lowLegitimacyScore
  | highVolume
  | highWithdrawRate
  | highFrequency
  | multiCurrencyUnverified
deriving DecidableEq

/-- Shallow embedding of `generateRecommendations` of
`src/auditService.js`: each rule is evaluated independently and appends
at most one finding, in source order. The last rule's
`hasMultiCurrency` flag is `totalReceived > 0`. -/
def generateRecommendations (summary : AuditSummaryF) (metrics : Metrics) : List RecKind :=
  (if summary.balanceStatus = BalanceStatus.DISCREPANCY then
      [RecKind.balanceDiscrepancyRec] else [])
    ++ (if metrics.fundLegitimacy.legitimacyScore < 80 then
      [RecKind.lowLegitimacyScore] else [])
    ++ (if 100 < metrics.totalTransactions then
      [RecKind.highVolume] else [])
    ++ (if (8 : Rat) / 10 <
          (if 0 < summary.currentBalance then
            metrics.amountBreakdown.totalWithdrawn / summary.currentBalance
          else 0) then
      [RecKind.highWithdrawRate] else [])
    ++ (if 10 < metrics.totalTransactions
          ∧ 5 < (metrics.totalTransactions : Rat) / 30 then
      [RecKind.highFrequency] else [])
    ++ (if 0 < metrics.amountBreakdown.totalReceived
          ∧ metrics.fundLegitimacy.legitimacyScore < 100 then
      [RecKind.multiCurrencyUnverified] else [])

/-- The errors `generateFullAuditTrail` can surface: Joi validation
failure, missing user, missing summary row. -/
inductive AuditError
  | invalidInput
  | notFound (uid : Int)
  | noSummaryData
deriving DecidableEq

/-- The ledger-store operations the service layer can issue, recorded as
a trace to reason about which queries a request performs. -/
inductive StoreOp
  | userExistsQ (uid : Int)
  | historyQ (uid : Int)
  | trailQ (uid : Int)
  | summaryQ (uid : Int)
deriving DecidableEq

/-- Joi `number().integer().positive().required()` validation of
`validateUserId`: the raw numeric input must be a positive integer. -/
def validateUserId (q : Rat) : Except AuditError Int :=
  if q.den = 1 ∧ 0 < q.num then Except.ok q.num
  else Except.error AuditError.invalidInput

/-- The complete audit report assembled by `generateFullAuditTrail`
(the wall-clock `auditTimestamp` is outside the model). -/
structure AuditReport where
  userId : Int
  summary : AuditSummaryF
  metrics : Metrics
  transactionHistory : List FormattedTx
  fundLegitimacyTrail : List FormattedTrail
  recommendations : List RecKind
deriving DecidableEq

/-- Shallow embedding of `generateFullAuditTrail`: validate, check
existence, run the three queries, format, derive metrics and
recommendations. The second component is the trace of ledger-store
operations the request performed, in order. -/
def generateFullAuditTrail (db : Database) (cutoff : Int) (q : Rat) :
    Except AuditError AuditReport × List StoreOp :=
  match validateUserId q with
  | Except.error e => (Except.error e, [])
  | Except.ok uid =>
      if userExists db uid then
        match getAuditSummary db uid with
        | none =>
            (Except.error AuditError.noSummaryData,
              [StoreOp.userExistsQ uid, StoreOp.historyQ uid,
                StoreOp.trailQ uid, StoreOp.summaryQ uid])
        | some srow =>
            let hist := formatTransactionHistory (getUserTransactionHistory db uid)
            let trail := formatFundTrail (getFundLegitimacyTrail db uid cutoff)
            let summ := formatAuditSummary srow
            let metrics := calculateAuditMetrics hist trail
            (Except.ok
              { userId := uid
                summary := summ
                metrics := metrics
                transactionHistory := hist
                fundLegitimacyTrail := trail
                recommendations := generateRecommendations summ metrics },
              [StoreOp.userExistsQ uid, StoreOp.historyQ uid,
                StoreOp.trailQ uid, StoreOp.summaryQ uid])
      else (Except.error (AuditError.notFound uid), [StoreOp.userExistsQ uid])

/-! Helper lemmas. -/

theorem jsRound_nonneg {q : Rat} (h : 0 ≤ q) : 0 ≤ jsRound q := by
  unfold jsRound
  exact Int.le_floor.mpr (by push_cast; linarith)

theorem jsRound_le_100 {q : Rat} (h : q ≤ 100) : jsRound q ≤ 100 := by
  unfold jsRound
  have h2 : ⌊(100 : Rat) + 1 / 2⌋ = 100 := by
    rw [Int.floor_eq_iff]
    norm_num
  calc ⌊q + 1 / 2⌋ ≤ ⌊(100 : Rat) + 1 / 2⌋ := Int.floor_le_floor (by linarith)
    _ = 100 := h2

theorem legitimacyScore_eq (txs : List FormattedTx) (trail : List FormattedTrail) :
    (calculateAuditMetrics txs trail).fundLegitimacy.legitimacyScore =
      if 0 < trail.length then
        jsRound (((trail.filter (fun tr =>
            tr.legitimacyStatus == LegStatus.LEGITIMATE_DEPOSIT
              || tr.legitimacyStatus == LegStatus.TRACEABLE_TO_DEPOSIT)).length : Rat)
          / (trail.length : Rat) * 100)
      else 100 := rfl

theorem totalReceived_eq (txs : List FormattedTx) (trail : List FormattedTrail) :
    (calculateAuditMetrics txs trail).amountBreakdown.totalReceived =
      round2 (((txs.filter (fun tx => tx.type == TxType.transfer)).filter
          (fun tx => decide (0 < tx.balanceImpact))).map (fun tx => tx.balanceImpact)).sum := rfl

/-! The claim theorems. -/

/-- Claim C5 (confirmed). For every audit summary the store can produce,
the reported discrepancy is the absolute difference of the stored and the
calculated balance, and the status is `BALANCED` exactly when that
difference is strictly below 0.01; both are total computations. -/
theorem c5_reconcile (db : Database) (uid : Int) (s : SummaryRow)
    (h : getAuditSummary db uid = some s) :
    (formatAuditSummary s).balanceDiscrepancy = |s.current_balance - s.calculated_balance|
      ∧ (s.balance_status = BalanceStatus.BALANCED ↔
          |s.current_balance - s.calculated_balance| < 1 / 100) := by
  refine ⟨rfl, ?_⟩
  unfold getAuditSummary at h
  rcases Option.map_eq_some'.mp h with ⟨u, _, rfl⟩
  constructor
  · intro hb
    by_contra hlt
    simp only [if_neg hlt] at hb
    exact BalanceStatus.noConfusion hb
  · intro hlt
    simp only [if_pos hlt]

/-- Claim C5, witness: a concrete discrepant account. -/
theorem c5_reconcile_witness :
    (formatAuditSummary
        { userid := 7, base_currency := "USD", current_balance := 5,
          calculated_balance := 0,
          balance_status := BalanceStatus.DISCREPANCY }).balanceDiscrepancy =
      |(5 : Rat) - 0|
    ∧ (BalanceStatus.DISCREPANCY = BalanceStatus.BALANCED ↔ |(5 : Rat) - 0| < 1 / 100) :=
  c5_reconcile
    { users := [{ userid := 7, balance := 5, currency := "USD" }],
      transactions := [], currencyconversions := [] } 7
    { userid := 7, base_currency := "USD", current_balance := 5,
      calculated_balance := 0, balance_status := BalanceStatus.DISCREPANCY }
    (by with_unfolding_all decide)

/-- Claim C7 (confirmed). The legitimacy score is 100 on an empty
provenance set, is `round(100 * legitimateOrTraceable / totalNodes)` on a
non-empty one (JS `Math.round` of the same rational), and always lies in
`[0, 100]`. -/
theorem c7_legitimacy_score (txs : List FormattedTx) (trail : List FormattedTrail) :
    (trail = [] → (calculateAuditMetrics txs trail).fundLegitimacy.legitimacyScore = 100)
    ∧ (trail ≠ [] →
        (calculateAuditMetrics txs trail).fundLegitimacy.legitimacyScore =
          jsRound (100 * ((trail.filter (fun tr =>
              tr.legitimacyStatus == LegStatus.LEGITIMATE_DEPOSIT
                || tr.legitimacyStatus == LegStatus.TRACEABLE_TO_DEPOSIT)).length : Rat)
            / (trail.length : Rat)))
    ∧ 0 ≤ (calculateAuditMetrics txs trail).fundLegitimacy.legitimacyScore
    ∧ (calculateAuditMetrics txs trail).fundLegitimacy.legitimacyScore ≤ 100 := by
  rw [legitimacyScore_eq]
  set L := (trail.filter (fun tr =>
      tr.legitimacyStatus == LegStatus.LEGITIMATE_DEPOSIT
        || tr.legitimacyStatus == LegStatus.TRACEABLE_TO_DEPOSIT)).length with hL
  by_cases hnil : trail = []
  · subst hnil
    simp [hL]
  · have hT : 0 < trail.length := List.length_pos.mpr hnil
    have hLT : L ≤ trail.length := List.length_filter_le _ _
    have hTQ : (0 : Rat) < (trail.length : Rat) := by exact_mod_cast hT
    have harg : (0 : Rat) ≤ (L : Rat) / (trail.length : Rat) * 100 := by positivity
    have harg2 : (L : Rat) / (trail.length : Rat) * 100 ≤ 100 := by
      have h1 : (L : Rat) / (trail.length : Rat) ≤ 1 :=
        (div_le_one hTQ).mpr (by exact_mod_cast hLT)
      nlinarith
    refine ⟨fun habs => absurd habs hnil, fun _ => ?_, ?_, ?_⟩
    · rw [if_pos hT]
      congr 1
      ring
    · rw [if_pos hT]
      exact jsRound_nonneg harg
    · rw [if_pos hT]
      exact jsRound_le_100 harg2

/-- One unverified provenance node, reused as concrete input. -/
def trailU : List FormattedTrail :=
  [{ transactionId := 1, senderId := 2, receiverId := 1, amount := 5,
     currency := "USD", timestamp := 1, trailDepth := 1, transactionPath := [1],
     userPath := [2, 1], legitimacyStatus := LegStatus.UNVERIFIED_SOURCE,
     isOriginalSource := false }]

/-- Claim C7, witness: concrete empty and singleton provenance sets. -/
theorem c7_legitimacy_score_witness :
    (calculateAuditMetrics [] []).fundLegitimacy.legitimacyScore = 100
    ∧ (calculateAuditMetrics [] trailU).fundLegitimacy.legitimacyScore =
        jsRound (100 * ((trailU.filter (fun tr =>
            tr.legitimacyStatus == LegStatus.LEGITIMATE_DEPOSIT
              || tr.legitimacyStatus == LegStatus.TRACEABLE_TO_DEPOSIT)).length : Rat)
          / (trailU.length : Rat)) :=
  ⟨(c7_legitimacy_score [] []).1 rfl,
   (c7_legitimacy_score [] trailU).2.1 (by decide)⟩

/-- A same-currency incoming transfer, already formatted. -/
def txSameCur : FormattedTx :=
  { transactionId := 9, type := TxType.transfer, timestamp := 5, senderAmount := 50,
    receiverAmount := 50, senderCurrency := "USD", receiverCurrency := "USD",
    senderId := 2, receiverId := 1, balanceImpact := 50, runningBalance := 50,
    baseCurrency := "USD" }

/-- A balanced summary, reused as concrete input. -/
def sBal : AuditSummaryF :=
  { userId := 1, baseCurrency := "USD", currentBalance := 100, calculatedBalance := 100,
    balanceStatus := BalanceStatus.BALANCED, balanceDiscrepancy := 0 }

/-- Claim C8, counterexample: the multi-currency INFO finding fires on a
history whose only transfer is same-currency (USD to USD), because the
code keys on `totalReceived > 0`, not on a cross-currency transfer being
present. -/
theorem c8_counterexample :
    RecKind.multiCurrencyUnverified ∈
        generateRecommendations sBal (calculateAuditMetrics [txSameCur] trailU)
      ∧ ∀ tx ∈ [txSameCur], tx.senderCurrency = tx.receiverCurrency := by
  with_unfolding_all decide

/-- Claim C8 (corrected). The multi-currency INFO recommendation is
emitted iff the legitimacy score is strictly below 100 and
`totalReceived` (the rounded sum of positive transfer impacts) is
strictly positive — not iff a cross-currency transfer is present. -/
theorem c8_multi_currency (s : AuditSummaryF) (m : Metrics) :
    RecKind.multiCurrencyUnverified ∈ generateRecommendations s m ↔
      (0 < m.amountBreakdown.totalReceived ∧ m.fundLegitimacy.legitimacyScore < 100) := by
  unfold generateRecommendations
  split_ifs with h1 h2 h3 h4 h5 h6 <;> simp_all

/-- Claim C9 (confirmed). A non-positive or non-integer account id is
rejected with the validation error before any ledger-store operation; a
valid id absent from the store fails with the not-found error right
after the existence check, with no further store queries and no report. -/
theorem c9_error_paths (db : Database) (cutoff : Int) (q : Rat) :
    (¬(q.den = 1 ∧ 0 < q.num) →
      generateFullAuditTrail db cutoff q = (Except.error AuditError.invalidInput, []))
    ∧ (∀ uid, validateUserId q = Except.ok uid → userExists db uid = false →
        generateFullAuditTrail db cutoff q =
          (Except.error (AuditError.notFound uid), [StoreOp.userExistsQ uid])) := by
  constructor
  · intro h
    unfold generateFullAuditTrail validateUserId
    rw [if_neg h]
  · intro uid hv hex
    unfold generateFullAuditTrail
    rw [hv]
    dsimp only
    rw [hex]
    simp

/-- Claim C9, witness: a negative id is rejected with no store access,
and a missing account yields not-found after only the existence check. -/
theorem c9_error_paths_witness :
    generateFullAuditTrail
        { users := [{ userid := 5, balance := 0, currency := "USD" }],
          transactions := [], currencyconversions := [] } 0 (-3) =
      (Except.error AuditError.invalidInput, [])
    ∧ generateFullAuditTrail
        { users := [{ userid := 5, balance := 0, currency := "USD" }],
          transactions := [], currencyconversions := [] } 0 9 =
      (Except.error (AuditError.notFound 9), [StoreOp.userExistsQ 9]) :=
  ⟨(c9_error_paths
      { users := [{ userid := 5, balance := 0, currency := "USD" }],
        transactions := [], currencyconversions := [] } 0 (-3)).1
      (by with_unfolding_all decide),
   (c9_error_paths
      { users := [{ userid := 5, balance := 0, currency := "USD" }],
        transactions := [], currencyconversions := [] } 0 9).2 9
      (by with_unfolding_all rfl) (by with_unfolding_all rfl)⟩

/-! Frontier iteration lemmas for the recursive CTE. -/

/-- The frontier after `k` expansion rounds. -/
def iterExpand (db : Database) (cutoff : Int) : Nat → List TrailNode → List TrailNode
  | 0, f => f
  | k + 1, f => iterExpand db cutoff k (expandAll db cutoff f)

theorem iterExpand_succ_comm (db : Database) (cutoff : Int) :
    ∀ (k : Nat) (f : List TrailNode),
      iterExpand db cutoff (k + 1) f = expandAll db cutoff (iterExpand db cutoff k f) := by
  intro k
  induction k with
  | zero => intro f; rfl
  | succ k ih => intro f; exact ih (expandAll db cutoff f)

theorem mem_trailFrom (db : Database) (cutoff : Int) :
    ∀ (n : Nat) (f : List TrailNode) (x : TrailNode),
      x ∈ trailFrom db cutoff n f ↔ ∃ k, k < n ∧ x ∈ iterExpand db cutoff k f := by
  intro n
  induction n with
  | zero => intro f x; simp [trailFrom]
  | succ n ih =>
      intro f x
      constructor
      · intro hx
        rcases List.mem_append.mp hx with h | h
        · exact ⟨0, Nat.succ_pos n, h⟩
        · rcases (ih (expandAll db cutoff f) x).mp h with ⟨k, hk, hmem⟩
          exact ⟨k + 1, by omega, hmem⟩
      · rintro ⟨k, hk, hmem⟩
        cases k with
        | zero => exact List.mem_append.mpr (Or.inl hmem)
        | succ k =>
            exact List.mem_append.mpr
              (Or.inr ((ih (expandAll db cutoff f) x).mpr ⟨k, by omega, hmem⟩))

theorem expand_meta {db : Database} {cutoff : Int} {x y : TrailNode}
    (hy : y ∈ expand db cutoff x) :
    x.trail_depth < 3
    ∧ ∃ t ∈ db.transactions, expandCand cutoff x t = true
        ∧ y = mkChild db.currencyconversions x t := by
  unfold expand at hy
  by_cases h : x.trail_depth < 3
  · rw [if_pos h] at hy
    rcases List.mem_map.mp hy with ⟨t, ht, rfl⟩
    rcases List.mem_filter.mp ht with ⟨ht1, ht2⟩
    exact ⟨h, t, ht1, ht2, rfl⟩
  · rw [if_neg h] at hy
    simp at hy

theorem seed_meta {db : Database} {uid cutoff : Int} {x : TrailNode}
    (hx : x ∈ seedNodes db uid cutoff) :
    x.trail_depth = 1 ∧ ∃ a b, x.user_path = [a, b] := by
  unfold seedNodes at hx
  rcases List.mem_map.mp hx with ⟨t, _, rfl⟩
  exact ⟨rfl, t.senderid, t.receiverid, rfl⟩

theorem trailFrom_inv {P : TrailNode → Prop} (db : Database) (cutoff : Int) :
    ∀ (n : Nat) (f : List TrailNode), (∀ x ∈ f, P x) →
      (∀ x y, y ∈ expand db cutoff x → P x → P y) →
      ∀ x ∈ trailFrom db cutoff n f, P x := by
  intro n
  induction n with
  | zero => intro f _ _ x hx; simp [trailFrom] at hx
  | succ n ih =>
      intro f hf hstep x hx
      rcases List.mem_append.mp hx with h | h
      · exact hf x h
      · refine ih (expandAll db cutoff f) ?_ hstep x h
        intro z hz
        rcases List.mem_flatMap.mp hz with ⟨a, ha, hz2⟩
        exact hstep a z hz2 (hf a ha)

theorem iterExpand_depth (db : Database) (cutoff : Int) :
    ∀ (k : Nat) (f : List TrailNode) (d : Nat), (∀ x ∈ f, x.trail_depth = d) →
      ∀ x ∈ iterExpand db cutoff k f, x.trail_depth = d + k := by
  intro k
  induction k with
  | zero => intro f d hf x hx; simpa using hf x hx
  | succ k ih =>
      intro f d hf x hx
      have hstep : ∀ z ∈ expandAll db cutoff f, z.trail_depth = d + 1 := by
        intro z hz
        rcases List.mem_flatMap.mp hz with ⟨a, ha, hz2⟩
        rcases expand_meta hz2 with ⟨_, t, _, _, rfl⟩
        simp [mkChild, hf a ha]
      have := ih (expandAll db cutoff f) (d + 1) hstep x hx
      omega

theorem fund_trail_depth_le {db : Database} {uid cutoff : Int} :
    ∀ x ∈ fund_trail db uid cutoff, x.trail_depth ≤ 3 := by
  refine trailFrom_inv db cutoff 5 (seedNodes db uid cutoff) ?_ ?_
  · intro x hx
    rw [(seed_meta hx).1]
    omega
  · intro x y hy _
    rcases expand_meta hy with ⟨hlt, t, _, _, rfl⟩
    simp only [mkChild]
    omega

theorem fund_trail_closed {db : Database} {uid cutoff : Int} :
    ∀ n ∈ fund_trail db uid cutoff, ∀ c ∈ expand db cutoff n, c ∈ fund_trail db uid cutoff := by
  intro n hn c hc
  rcases (mem_trailFrom db cutoff 5 (seedNodes db uid cutoff) n).mp hn with ⟨k, _, hkmem⟩
  have hseed : ∀ x ∈ seedNodes db uid cutoff, x.trail_depth = 1 := fun x hx => (seed_meta hx).1
  have hdep : n.trail_depth = 1 + k :=
    iterExpand_depth db cutoff k (seedNodes db uid cutoff) 1 hseed n hkmem
  have hlt : n.trail_depth < 3 := (expand_meta hc).1
  have hc2 : c ∈ iterExpand db cutoff (k + 1) (seedNodes db uid cutoff) := by
    rw [iterExpand_succ_comm]
    exact List.mem_flatMap.mpr ⟨n, hkmem, hc⟩
  exact (mem_trailFrom db cutoff 5 (seedNodes db uid cutoff) c).mpr ⟨k + 1, by omega, hc2⟩

/-- Structural invariant of a node's account path: at least the two seed
entries, a duplicate-free tail, and the whole path duplicate-free unless
its first two entries coincide (a self-transfer seed). -/
def pathInv (x : TrailNode) : Prop :=
  2 ≤ x.user_path.length
    ∧ x.user_path.tail.Nodup
    ∧ (x.user_path.Nodup ∨ ∃ a l, x.user_path = a :: a :: l)

theorem fund_trail_path {db : Database} {uid cutoff : Int} :
    ∀ x ∈ fund_trail db uid cutoff, pathInv x := by
  refine trailFrom_inv db cutoff 5 (seedNodes db uid cutoff) ?_ ?_
  · intro x hx
    rcases (seed_meta hx).2 with ⟨a, b, hab⟩
    unfold pathInv
    rw [hab]
    by_cases hab2 : a = b
    · subst hab2
      exact ⟨by simp, by simp, Or.inr ⟨a, [], rfl⟩⟩
    · exact ⟨by simp, by simp, Or.inl (by simp [hab2])⟩
  · intro x y hy hx
    rcases expand_meta hy with ⟨_, t, _, hcand, rfl⟩
    have hnotin : t.senderid ∉ x.user_path := by
      have h2 : (!(x.user_path.contains t.senderid)) = true := by
        simp only [expandCand, Bool.and_eq_true] at hcand
        exact hcand.1.2
      simpa using h2
    rcases hx with ⟨hlen, htail, hnd⟩
    unfold pathInv
    simp only [mkChild]
    rcases hpath : x.user_path with _ | ⟨b, q⟩
    · rw [hpath] at hlen
      simp at hlen
    · rw [hpath] at hnotin htail hnd
      have hq : t.senderid ∉ q := fun hmem => hnotin (List.mem_cons_of_mem b hmem)
      refine ⟨?_, ?_, ?_⟩
      · simp
      · simp only [List.cons_append, List.tail_cons]
        simp only [List.tail_cons] at htail
        rw [List.nodup_append]
        refine ⟨htail, List.nodup_singleton _, ?_⟩
        intro z hz hz2
        rw [List.mem_singleton.mp hz2] at hz
        exact hq hz
      · rcases hnd with hnd | ⟨a, l, hal⟩
        · left
          rw [List.nodup_append]
          refine ⟨hnd, List.nodup_singleton _, ?_⟩
          intro z hz hz2
          rw [List.mem_singleton.mp hz2] at hz
          exact hnotin hz
        · right
          obtain ⟨hba, hq2⟩ : b = a ∧ q = a :: l := by
            simpa only [List.cons.injEq] using hal
          subst hba
          refine ⟨b, l ++ [t.senderid], ?_⟩
          rw [hq2]
          simp

/-- Claim C2 (corrected). Expansion in the code stops at the depth guard
`trail_depth < 3`, not at the nominal ceiling 10: the trail is closed
under `expand` (children of nodes strictly below depth 3 are all
present), classification marks a non-deposit node `MAX_DEPTH_REACHED`
exactly when its depth is at least 10, every produced depth is at most 3,
and hence no node is ever classified `MAX_DEPTH_REACHED`. -/
theorem c2_expansion (db : Database) (uid cutoff : Int) :
    (∀ n ∈ fund_trail db uid cutoff, ∀ c ∈ expand db cutoff n, c ∈ fund_trail db uid cutoff)
    ∧ (∀ r ∈ legitimate_sources db uid cutoff,
        (r.legitimacy_statusF = LegStatus.MAX_DEPTH_REACHED ↔
          (r.node.is_original_source = false ∧ 10 ≤ r.node.trail_depth)))
    ∧ (∀ n ∈ fund_trail db uid cutoff, n.trail_depth ≤ 3)
    ∧ (∀ r ∈ legitimate_sources db uid cutoff,
        r.legitimacy_statusF ≠ LegStatus.MAX_DEPTH_REACHED) := by
  have hclass : ∀ r ∈ legitimate_sources db uid cutoff,
      (r.legitimacy_statusF = LegStatus.MAX_DEPTH_REACHED ↔
        (r.node.is_original_source = false ∧ 10 ≤ r.node.trail_depth)) := by
    intro r hr
    rcases List.mem_map.mp hr with ⟨ft, _, rfl⟩
    show legitimacy_statusOf (fund_trail db uid cutoff) ft = LegStatus.MAX_DEPTH_REACHED ↔ _
    unfold legitimacy_statusOf
    split_ifs with h1 h2 h3 <;> simp_all
  refine ⟨fund_trail_closed, hclass, fund_trail_depth_le, ?_⟩
  intro r hr hmax
  have h10 := (hclass r hr).mp hmax
  rcases List.mem_map.mp hr with ⟨ft, hft, rfl⟩
  obtain ⟨-, h10b⟩ := h10
  have h10c : 10 ≤ ft.trail_depth := h10b
  have h3 := fund_trail_depth_le ft hft
  omega

/-- Ledger snapshot with a four-hop transfer chain 5 to 4 to 3 to 2 to 1,
all successful and recent. -/
def chainDb : Database :=
  { users := []
    transactions :=
      [ { transactionid := 1, transactiontype := TxType.transfer, userid := 2,
          fulltimestamp := 40, status := some TxStatus.successful, senderamount := 10,
          receiveramount := 10, sendercurrency := "USD", receivercurrency := "USD",
          senderid := 2, receiverid := 1 },
        { transactionid := 2, transactiontype := TxType.transfer, userid := 3,
          fulltimestamp := 30, status := some TxStatus.successful, senderamount := 10,
          receiveramount := 10, sendercurrency := "USD", receivercurrency := "USD",
          senderid := 3, receiverid := 2 },
        { transactionid := 3, transactiontype := TxType.transfer, userid := 4,
          fulltimestamp := 20, status := some TxStatus.successful, senderamount := 10,
          receiveramount := 10, sendercurrency := "USD", receivercurrency := "USD",
          senderid := 4, receiverid := 3 },
        { transactionid := 4, transactiontype := TxType.transfer, userid := 5,
          fulltimestamp := 10, status := some TxStatus.successful, senderamount := 10,
          receiveramount := 10, sendercurrency := "USD", receivercurrency := "USD",
          senderid := 5, receiverid := 4 } ]
    currencyconversions := [] }

/-- Claim C2, counterexample: auditing account 1 of `chainDb`, the trail
holds a node at depth 3 (far below the claimed ceiling 10) that has a
valid earlier incoming candidate transaction, yet no node one level
deeper exists — the node was not expanded. -/
theorem c2_counterexample :
    ∃ n ∈ fund_trail chainDb 1 0, n.trail_depth < 10
      ∧ (∃ t ∈ chainDb.transactions, expandCand 0 n t = true)
      ∧ ∀ c ∈ fund_trail chainDb 1 0, c.trail_depth ≠ n.trail_depth + 1 := by
  with_unfolding_all decide

/-- The depth-1 seed node of `chainDb`'s audit of account 1. -/
def seedN1 : TrailNode :=
  { transactionid := 1, senderid := 2, receiverid := 1, senderamount := 10,
    receiveramount := 10, sendercurrency := "USD", receivercurrency := "USD",
    fulltimestamp := 40, transactiontype := TxType.transfer, trail_depth := 1,
    transaction_path := [1], user_path := [2, 1], traced_amount := 10,
    traced_currency := "USD", is_original_source := false }

/-- The depth-2 child of `seedN1` along transaction 2. -/
def childN2 : TrailNode :=
  { transactionid := 2, senderid := 3, receiverid := 2, senderamount := 10,
    receiveramount := 10, sendercurrency := "USD", receivercurrency := "USD",
    fulltimestamp := 30, transactiontype := TxType.transfer, trail_depth := 2,
    transaction_path := [1, 2], user_path := [2, 1, 3], traced_amount := 10,
    traced_currency := "USD", is_original_source := false }

/-- Claim C2, witness: concrete closure, depth bound and classification
facts on `chainDb`. -/
theorem c2_expansion_witness :
    childN2 ∈ fund_trail chainDb 1 0
    ∧ seedN1.trail_depth ≤ 3
    ∧ ({ node := seedN1, legitimacy_statusF := LegStatus.UNVERIFIED_SOURCE } :
        LegRow).legitimacy_statusF ≠ LegStatus.MAX_DEPTH_REACHED :=
  ⟨(c2_expansion chainDb 1 0).1 seedN1 (by with_unfolding_all decide) childN2
      (by with_unfolding_all decide),
   (c2_expansion chainDb 1 0).2.2.1 seedN1 (by with_unfolding_all decide),
   (c2_expansion chainDb 1 0).2.2.2 _ (by with_unfolding_all decide)⟩

/-- Claim C4 (corrected). Every node of every produced trail has depth at
most 10 (in fact at most 3), a duplicate-free account path apart from the
one exception the code admits: the two seed entries coincide when the
seed transfer is a self-transfer. -/
theorem c4_trail_paths (db : Database) (uid cutoff : Int) :
    ∀ r ∈ getFundLegitimacyTrail db uid cutoff,
      r.node.trail_depth ≤ 10
      ∧ r.node.user_path.tail.Nodup
      ∧ (r.node.user_path.Nodup ∨ ∃ a l, r.node.user_path = a :: a :: l) := by
  intro r hr
  have h1 : r ∈ (legitimate_sources db uid cutoff).insertionSort trailOrder :=
    List.mem_of_mem_take hr
  have h2 : r ∈ legitimate_sources db uid cutoff :=
    (List.perm_insertionSort trailOrder _).mem_iff.mp h1
  rcases List.mem_map.mp h2 with ⟨ft, hft, rfl⟩
  have hd := fund_trail_depth_le ft hft
  have hp := fund_trail_path ft hft
  refine ⟨?_, hp.2.1, hp.2.2⟩
  show ft.trail_depth ≤ 10
  omega

/-- Ledger snapshot holding one successful recent self-transfer of
account 1 to itself. -/
def dbSelf : Database :=
  { users := []
    transactions :=
      [ { transactionid := 1, transactiontype := TxType.transfer, userid := 1,
          fulltimestamp := 10, status := some TxStatus.successful, senderamount := 5,
          receiveramount := 5, sendercurrency := "USD", receivercurrency := "USD",
          senderid := 1, receiverid := 1 } ]
    currencyconversions := [] }

/-- Claim C4, counterexample: the self-transfer seed produces a trail node
whose account path `[1, 1]` repeats an account id. -/
theorem c4_counterexample :
    ∃ r ∈ getFundLegitimacyTrail dbSelf 1 0, ¬ r.node.user_path.Nodup := by
  with_unfolding_all decide

/-- The classified seed row of `dbSelf`'s audit of account 1. -/
def selfRow : LegRow :=
  { node :=
      { transactionid := 1, senderid := 1, receiverid := 1, senderamount := 5,
        receiveramount := 5, sendercurrency := "USD", receivercurrency := "USD",
        fulltimestamp := 10, transactiontype := TxType.transfer, trail_depth := 1,
        transaction_path := [1], user_path := [1, 1], traced_amount := 5,
        traced_currency := "USD", is_original_source := false }
    legitimacy_statusF := LegStatus.UNVERIFIED_SOURCE }

/-- Claim C4, witness: the amended invariant evaluated on the concrete
self-transfer trail row. -/
theorem c4_trail_paths_witness :
    selfRow.node.trail_depth ≤ 10
    ∧ selfRow.node.user_path.tail.Nodup
    ∧ (selfRow.node.user_path.Nodup ∨ ∃ a l, selfRow.node.user_path = a :: a :: l) :=
  c4_trail_paths dbSelf 1 0 selfRow (by with_unfolding_all decide)

theorem dedupByKey_length_le : ∀ (seen : List (Int × Int × Int)) (l : List LegRow),
    (dedupByKey seen l).length ≤ l.length := by
  intro seen l
  induction l generalizing seen with
  | nil => simp [dedupByKey]
  | cons r rs ih =>
      unfold dedupByKey
      split_ifs with h
      · exact Nat.le_succ_of_le (ih seen)
      · simpa using Nat.succ_le_succ (ih (trailKey r :: seen))

/-- Claim C10 (confirmed). The formatted fund trail of any audit holds at
most 20 entries whatever the ledger size, and is sorted by non-decreasing
trail depth after deduplication. -/
theorem c10_trail_bounded (db : Database) (uid cutoff : Int) :
    (formatFundTrail (getFundLegitimacyTrail db uid cutoff)).length ≤ 20
    ∧ List.Sorted depthOrder (formatFundTrail (getFundLegitimacyTrail db uid cutoff)) := by
  constructor
  · unfold formatFundTrail
    calc (((dedupByKey [] (getFundLegitimacyTrail db uid cutoff)).map
            toFormattedTrail).insertionSort depthOrder).length
        = ((dedupByKey [] (getFundLegitimacyTrail db uid cutoff)).map
            toFormattedTrail).length := (List.perm_insertionSort depthOrder _).length_eq
      _ = (dedupByKey [] (getFundLegitimacyTrail db uid cutoff)).length :=
          List.length_map _ _
      _ ≤ (getFundLegitimacyTrail db uid cutoff).length := dedupByKey_length_le _ _
      _ ≤ 20 := by
          unfold getFundLegitimacyTrail
          exact List.length_take_le _ _
  · exact List.sorted_insertionSort depthOrder _

/-- Sum of the impacts of a capped, reordered history equals the sum over
the original rows once the row count fits under the cap. -/
theorem sum_impacts_sort_take (rows : List HistoryRow) (h : rows.length ≤ 100) :
    (((rows.insertionSort histOrder).take 100).map
        (fun r => r.balance_impact_base_currency)).sum
      = (rows.map (fun r => r.balance_impact_base_currency)).sum := by
  have hlen2 : (rows.insertionSort histOrder).length ≤ 100 := by
    rw [(List.perm_insertionSort histOrder rows).length_eq]
    exact h
  rw [List.take_of_length_le hlen2]
  exact ((List.perm_insertionSort histOrder rows).map _).sum_eq

/-- Under the stated side conditions the summary filter and the history
filter select the same transactions. -/
theorem summary_filter_eq_userTxns (db : Database) (uid : Int)
    (hstat : ∀ t ∈ db.transactions, isRelevantTx uid t = true → t.status ≠ none) :
    db.transactions.filter (summaryRelevant uid) = userTxns db uid := by
  unfold userTxns
  apply List.filter_congr
  intro t ht
  unfold summaryRelevant
  cases hr : isRelevantTx uid t
  · simp
  · have hne := hstat t ht hr
    cases hs : t.status with
    | none => exact absurd hs hne
    | some st => simp [statusSuccessful, hs]

/-- Under distinct conversion-pair keys, filtering on one pair yields
exactly the row `find?` yields. -/
theorem filter_pair : ∀ (cc : List Conversion),
    (cc.map (fun c => (c.fromcurrency, c.tocurrency))).Nodup → ∀ f tc : String,
    cc.filter (fun c => c.fromcurrency == f && c.tocurrency == tc)
      = (cc.find? (fun c => c.fromcurrency == f && c.tocurrency == tc)).toList := by
  intro cc
  induction cc with
  | nil => intro _ f tc; rfl
  | cons c0 rest ih =>
      intro hN f tc
      rw [List.map_cons, List.nodup_cons] at hN
      by_cases h0 : (c0.fromcurrency == f && c0.tocurrency == tc) = true
      · rw [List.filter_cons, if_pos h0, List.find?_cons]
        simp only [h0]
        have hrest : rest.filter (fun c => c.fromcurrency == f && c.tocurrency == tc) = [] := by
          rw [List.filter_eq_nil_iff]
          intro c hc hpc
          apply hN.1
          refine List.mem_map.mpr ⟨c, hc, ?_⟩
          simp only [Bool.and_eq_true, beq_iff_eq] at h0 hpc
          rw [hpc.1, hpc.2, h0.1, h0.2]
        rw [hrest]
        rfl
      · have h0f : (c0.fromcurrency == f && c0.tocurrency == tc) = false := by
          simpa using h0
        rw [List.filter_cons, if_neg h0, List.find?_cons]
        simp only [h0f]
        exact ih hN.2 f tc

/-- When the history join condition collapses to one pair predicate, the
join produces exactly one row carrying the `lookupRate` of that pair. -/
theorem ccRates_single (cc : List Conversion) (uid : Int) (base : String) (t : Txn)
    (fcur : String)
    (hN : (cc.map (fun c => (c.fromcurrency, c.tocurrency))).Nodup)
    (hfil : cc.filter (historyCCMatch uid base t)
      = cc.filter (fun c => c.fromcurrency == fcur && c.tocurrency == base)) :
    ccRates cc uid base t = [lookupRate cc fcur base] := by
  unfold ccRates lookupRate
  rw [hfil, filter_pair cc hN fcur base]
  cases hf : cc.find? (fun c => c.fromcurrency == fcur && c.tocurrency == base) with
  | none => simp
  | some c => simp

/-- On every relevant transaction without a cross-currency self-transfer,
the disjunctive history join yields one row whose `CASE` impact equals
the summary's `balance_impact`. -/
theorem ccRates_map_impact (cc : List Conversion) (uid : Int) (base : String) (t : Txn)
    (hN : (cc.map (fun c => (c.fromcurrency, c.tocurrency))).Nodup)
    (hrel : isRelevantTx uid t = true)
    (hself : t.transactiontype = TxType.transfer → t.senderid = uid → t.receiverid = uid →
      t.sendercurrency = t.receivercurrency) :
    (ccRates cc uid base t).map (fun r => balance_impact_join uid base r t)
      = [balance_impact uid base cc t] := by
  cases htype : t.transactiontype with
  | deposit =>
      rw [ccRates_single cc uid base t t.receivercurrency hN ?_]
      · simp only [List.map_cons, List.map_nil, balance_impact_join, balance_impact, htype,
          rateOr1]
      · apply List.filter_congr
        intro c _
        rw [Bool.eq_iff_iff]
        simp [historyCCMatch, htype]
  | withdrawal =>
      rw [ccRates_single cc uid base t t.sendercurrency hN ?_]
      · simp only [List.map_cons, List.map_nil, balance_impact_join, balance_impact, htype,
          rateOr1]
      · apply List.filter_congr
        intro c _
        rw [Bool.eq_iff_iff]
        simp [historyCCMatch, htype]
  | transfer =>
      by_cases hsend : t.senderid = uid
      · rw [ccRates_single cc uid base t t.sendercurrency hN ?_]
        · simp only [List.map_cons, List.map_nil, balance_impact_join, balance_impact, htype,
            rateOr1, if_pos hsend]
        · apply List.filter_congr
          intro c _
          rw [Bool.eq_iff_iff]
          by_cases hrecv : t.receiverid = uid
          · have hcur := hself htype hsend hrecv
            simp [historyCCMatch, htype, hsend, hrecv, hcur]
          · simp [historyCCMatch, htype, hsend, hrecv]
      · by_cases hrecv : t.receiverid = uid
        · rw [ccRates_single cc uid base t t.receivercurrency hN ?_]
          · simp only [List.map_cons, List.map_nil, balance_impact_join, balance_impact, htype,
              rateOr1, if_neg hsend, if_pos hrecv]
          · apply List.filter_congr
            intro c _
            rw [Bool.eq_iff_iff]
            simp [historyCCMatch, htype, hsend, hrecv]
        · rw [isRelevantTx] at hrel
          simp [htype, hsend, hrecv] at hrel
  | refund =>
      rw [isRelevantTx] at hrel
      simp [htype] at hrel
  | reversal =>
      rw [isRelevantTx] at hrel
      simp [htype] at hrel

theorem flatMap_impact_aux (cc : List Conversion) (uid : Int) (base : String)
    (hN : (cc.map (fun c => (c.fromcurrency, c.tocurrency))).Nodup) :
    ∀ l : List Txn,
      (∀ t ∈ l, isRelevantTx uid t = true
        ∧ (t.transactiontype = TxType.transfer → t.senderid = uid → t.receiverid = uid →
            t.sendercurrency = t.receivercurrency)) →
      (l.flatMap (fun t => (ccRates cc uid base t).map (fun r => (t, r)))).map
          (fun p => balance_impact_join uid base p.2 p.1)
        = l.map (balance_impact uid base cc) := by
  intro l
  induction l with
  | nil => intro _; rfl
  | cons t l ih =>
      intro hl
      simp only [List.flatMap_cons, List.map_append, List.map_cons, List.map_map]
      rw [ih (fun s hs => hl s (List.mem_cons_of_mem t hs))]
      have h1 := hl t (List.mem_cons_self t l)
      have h2 := ccRates_map_impact cc uid base t hN h1.1 h1.2
      have hcomp : ((fun p : Txn × Option Rat => balance_impact_join uid base p.2 p.1)
          ∘ fun r => (t, r)) = fun r => balance_impact_join uid base r t := rfl
      rw [hcomp, h2]
      rfl

/-- Over a snapshot with distinct conversion pairs and no cross-currency
self-transfers, the joined history rows carry exactly one impact per
relevant transaction, equal to the summary's. -/
theorem impactRows_map_impact (db : Database) (uid : Int) (base : String)
    (hN : (db.currencyconversions.map (fun c => (c.fromcurrency, c.tocurrency))).Nodup)
    (hself : ∀ t ∈ db.transactions, t.transactiontype = TxType.transfer → t.senderid = uid →
      t.receiverid = uid → t.sendercurrency = t.receivercurrency) :
    (impactRows db uid base).map (fun p => balance_impact_join uid base p.2 p.1)
      = (userTxns db uid).map (balance_impact uid base db.currencyconversions) := by
  unfold impactRows
  apply flatMap_impact_aux db.currencyconversions uid base hN
  intro t ht
  unfold userTxns at ht
  have ht2 := List.mem_filter.mp ht
  have ht3 := (Bool.and_eq_true _ _).mp ht2.2
  exact ⟨ht3.1, hself t ht2.1⟩

/-- Claim C1 (corrected). When the account exists, has at most 100
relevant successful transactions, none with a NULL status, the
conversion table has distinct pairs and no relevant transfer is a
cross-currency self-transfer, the summary's calculated balance equals
the sum of the balance impacts in the returned history. (Outside these
conditions the `LIMIT 100`, the `OR t.status IS NULL` and the history
query's disjunctive conversion join each break the law.) -/
theorem c1_reconciliation (db : Database) (uid : Int) (u : User)
    (hu : findUser db uid = some u)
    (hN : (db.currencyconversions.map (fun c => (c.fromcurrency, c.tocurrency))).Nodup)
    (hself : ∀ t ∈ db.transactions, t.transactiontype = TxType.transfer → t.senderid = uid →
      t.receiverid = uid → t.sendercurrency = t.receivercurrency)
    (hlen : (userTxns db uid).length ≤ 100)
    (hstat : ∀ t ∈ db.transactions, isRelevantTx uid t = true → t.status ≠ none) :
    (getAuditSummary db uid).map (fun s => s.calculated_balance)
      = some (((getUserTransactionHistory db uid).map
          (fun r => r.balance_impact_base_currency)).sum) := by
  have hmap : (impactRows db uid u.currency).map
      (fun p => balance_impact_join uid u.currency p.2 p.1)
      = (userTxns db uid).map (balance_impact uid u.currency db.currencyconversions) :=
    impactRows_map_impact db uid u.currency hN hself
  have hlen2 : (impactRows db uid u.currency).length ≤ 100 := by
    have hl := congrArg List.length hmap
    rw [List.length_map, List.length_map] at hl
    omega
  simp only [getAuditSummary, getUserTransactionHistory, hu, Option.map_some']
  congr 1
  rw [sum_impacts_sort_take]
  · rw [List.map_map]
    have hcomp : (impactRows db uid u.currency).map
        ((fun r => r.balance_impact_base_currency) ∘ annRow db uid u.currency)
        = (impactRows db uid u.currency).map
          (fun p => balance_impact_join uid u.currency p.2 p.1) := by
      apply List.map_congr_left
      intro p _
      rfl
    rw [hcomp, hmap]
    unfold calculated_balance
    rw [summary_filter_eq_userTxns db uid hstat]
  · rw [List.length_map]
    exact hlen2

/-- The `i`-th audited deposit of the high-volume counterexample ledger:
one base-currency unit at a distinct timestamp. -/
def depositTx (i : Nat) : Txn :=
  { transactionid := (i : Int), transactiontype := TxType.deposit, userid := 1,
    fulltimestamp := 101 - (i : Int), status := some TxStatus.successful,
    senderamount := 0, receiveramount := 1, sendercurrency := "USD",
    receivercurrency := "USD", senderid := 0, receiverid := 1 }

/-- Ledger snapshot with 101 successful one-unit deposits into account 1. -/
def dbMany : Database :=
  { users := [{ userid := 1, balance := 101, currency := "USD" }]
    transactions := (List.range 101).map depositTx
    currencyconversions := [] }

set_option maxRecDepth 100000 in
/-- Claim C1, counterexample: with 101 relevant transactions the history
is capped at the 100 most recent rows, so its impacts sum to 100 while
the summary computes 101 — the two balance computations disagree. -/
theorem c1_counterexample :
    ((getUserTransactionHistory dbMany 1).map
        (fun r => r.balance_impact_base_currency)).sum = 100
    ∧ (getAuditSummary dbMany 1).map (fun s => s.calculated_balance) = some 101
    ∧ (getAuditSummary dbMany 1).map (fun s => s.calculated_balance)
        ≠ some (((getUserTransactionHistory dbMany 1).map
            (fun r => r.balance_impact_base_currency)).sum) := by
  with_unfolding_all decide

/-- Ledger snapshot with two successful deposits into account 1, at
distinct timestamps. -/
def dbTwo : Database :=
  { users := [{ userid := 1, balance := 30, currency := "USD" }]
    transactions :=
      [ { transactionid := 1, transactiontype := TxType.deposit, userid := 1,
          fulltimestamp := 1, status := some TxStatus.successful, senderamount := 0,
          receiveramount := 10, sendercurrency := "USD", receivercurrency := "USD",
          senderid := 0, receiverid := 1 },
        { transactionid := 2, transactiontype := TxType.deposit, userid := 1,
          fulltimestamp := 2, status := some TxStatus.successful, senderamount := 0,
          receiveramount := 20, sendercurrency := "USD", receivercurrency := "USD",
          senderid := 0, receiverid := 1 } ]
    currencyconversions := [] }

/-- Claim C1, witness: the reconciliation law evaluated on a concrete
two-deposit account. -/
theorem c1_reconciliation_witness :
    (getAuditSummary dbTwo 1).map (fun s => s.calculated_balance)
      = some (((getUserTransactionHistory dbTwo 1).map
          (fun r => r.balance_impact_base_currency)).sum) :=
  c1_reconciliation dbTwo 1 { userid := 1, balance := 30, currency := "USD" }
    (by with_unfolding_all rfl) (by with_unfolding_all decide)
    (by with_unfolding_all decide) (by with_unfolding_all decide)
    (by with_unfolding_all decide)

/-- The running-balance recurrence exactly as the claim words it:
`running[i] = running[i-1] + impact[i]` over the returned order, with the
accumulator seeded at zero. Stated from the claim for comparison with
the code's windowed sums. -/
def runningFromZero (acc : Rat) : List Rat → List Rat
  | [] => []
  | x :: xs => (acc + x) :: runningFromZero (acc + x) xs

/-- Claim C6, counterexample: on a two-deposit account the returned
history is most-recent-first, so it is not chronologically ascending and
its running balances do not satisfy the claim's recurrence over the
returned order (the first returned row already carries the full total). -/
theorem c6_counterexample :
    ¬ (List.Chain' (fun a b : HistoryRow =>
          a.tx.fulltimestamp < b.tx.fulltimestamp
            ∨ (a.tx.fulltimestamp = b.tx.fulltimestamp
                ∧ a.tx.transactionid < b.tx.transactionid))
        (getUserTransactionHistory dbTwo 1)
      ∧ (getUserTransactionHistory dbTwo 1).map (fun r => r.running_balance)
          = runningFromZero 0 ((getUserTransactionHistory dbTwo 1).map
              (fun r => r.balance_impact_base_currency))) :=
  fun h => absurd h.2 (by with_unfolding_all decide)

/-- Claim C6 (corrected). The returned history is sorted by
non-increasing timestamp (most recent first, no tie-break on ids), holds
at most 100 rows, and each row's running balance is the sum of the
impacts of all joined rows (relevant successful transactions multiplied
by their matching conversion rows) with timestamp at most the row's own
— the ascending recurrence seeded at zero, never at the stored balance,
with timestamp peers and join duplicates aggregated together. -/
theorem c6_history_order (db : Database) (uid : Int) :
    List.Sorted histOrder (getUserTransactionHistory db uid)
    ∧ (getUserTransactionHistory db uid).length ≤ 100
    ∧ ∀ r ∈ getUserTransactionHistory db uid, ∃ u, findUser db uid = some u ∧
        r.running_balance = (((impactRows db uid u.currency).filter
            (fun q => decide (q.1.fulltimestamp ≤ r.tx.fulltimestamp))).map
          (fun q => balance_impact_join uid u.currency q.2 q.1)).sum := by
  cases hu : findUser db uid with
  | none =>
      refine ⟨?_, ?_, ?_⟩ <;> simp [getUserTransactionHistory, hu]
  | some u =>
      have hhist : getUserTransactionHistory db uid =
          (((impactRows db uid u.currency).map (annRow db uid u.currency)).insertionSort
            histOrder).take 100 := by
        simp [getUserTransactionHistory, hu]
      refine ⟨?_, ?_, ?_⟩
      · rw [hhist]
        exact List.Pairwise.sublist (List.take_sublist _ _)
          (List.sorted_insertionSort histOrder _)
      · rw [hhist]
        exact List.length_take_le _ _
      · intro r hr
        rw [hhist] at hr
        have hr2 := List.mem_of_mem_take hr
        have hr3 := (List.perm_insertionSort histOrder _).mem_iff.mp hr2
        rcases List.mem_map.mp hr3 with ⟨p, _, rfl⟩
        exact ⟨u, rfl, rfl⟩

/-- The later of `dbTwo`'s two history rows: impact 20, running total 30. -/
def c6row : HistoryRow :=
  { tx :=
      { transactionid := 2, transactiontype := TxType.deposit, userid := 1,
        fulltimestamp := 2, status := some TxStatus.successful, senderamount := 0,
        receiveramount := 20, sendercurrency := "USD", receivercurrency := "USD",
        senderid := 0, receiverid := 1 }
    balance_impact_base_currency := 20
    running_balance := 30
    user_base_currency := "USD" }

/-- Claim C6, witness: order and running-balance law evaluated on the
concrete two-deposit account. -/
theorem c6_history_order_witness :
    List.Sorted histOrder (getUserTransactionHistory dbTwo 1)
    ∧ ∃ u, findUser dbTwo 1 = some u ∧
        c6row.running_balance = (((impactRows dbTwo 1 u.currency).filter
            (fun q => decide (q.1.fulltimestamp ≤ c6row.tx.fulltimestamp))).map
          (fun q => balance_impact_join 1 u.currency q.2 q.1)).sum :=
  ⟨(c6_history_order dbTwo 1).1,
   (c6_history_order dbTwo 1).2.2 c6row (by with_unfolding_all decide)⟩

/-- A successful refund of 100 base-currency units received by account 1. -/
def refundTxn : Txn :=
  { transactionid := 1, transactiontype := TxType.refund, userid := 1,
    fulltimestamp := 5, status := some TxStatus.successful, senderamount := 0,
    receiveramount := 100, sendercurrency := "USD", receivercurrency := "USD",
    senderid := 2, receiverid := 1 }

/-- Ledger snapshot holding only `refundTxn` for account 1. -/
def dbRefund : Database :=
  { users := [{ userid := 1, balance := 100, currency := "USD" }]
    transactions := [refundTxn]
    currencyconversions := [] }

/-- Claim C3 (code bug). A successful refund received by the audited
account is excluded wholesale by the relevance filter of both queries —
the history comes back empty and the calculated balance is 0 instead of
+100 — and a reversal fares the same, although the repository's own
tests and edge-case documentation state refunds and reversals are
tracked with their balance impacts. -/
theorem c3_refund_excluded :
    refundTxn ∈ dbRefund.transactions
    ∧ refundTxn.status = some TxStatus.successful
    ∧ refundTxn.receiverid = 1
    ∧ isRelevantTx 1 refundTxn = false
    ∧ isRelevantTx 1 { refundTxn with transactiontype := TxType.reversal } = false
    ∧ getUserTransactionHistory dbRefund 1 = []
    ∧ (getAuditSummary dbRefund 1).map (fun s => s.calculated_balance) = some 0 := by
  with_unfolding_all decide
